import Mathlib

/-!
Shallow embedding of the dependency-aware module/service loader of the
nous-bot repository, together with theorems checking the natural-language
specification against the code.

Embedded source files:
* `src/core/loader.py` (`ModuleLoader`): dependency analysis, topological
  load-order resolution, level grouping, per-module loading.
* `src/services/base.py` (`BaseService`): the per-service lifecycle state
  machine (initialize / start / stop / cleanup).
* `src/services/manager.py` (`ServiceManager`): the service registry,
  `get_service` lookup and reverse-order `cleanup`.
* `src/services/__init__.py` (`get_services`): the broken singleton accessor.

Python exceptions are modelled as a kind (the exception class) plus the
message string; `async` plays no role in the verified properties, so the
coroutines are embedded as pure state-passing functions.
-/

namespace NousBot

/-- The Python exception classes that occur in the embedded code. -/
inductive ExcKind where
  | keyError
  | valueError
  | attributeError
  | runtimeError
deriving DecidableEq, Repr

/-- A raised Python exception: its class and its message. -/
structure PyExc where
  kind : ExcKind
  msg : String
deriving DecidableEq, Repr

/-- `ServiceStatus` from `src/services/interface.py`. -/
inductive ServiceStatus where
  | uninitialized
  | initializing
  | initialized
  | starting
  | running
  | stopping
  | stopped
  | error
deriving DecidableEq, Repr

/-- Outcome of awaiting a subclass lifecycle hook: it either returns or
raises an exception. -/
inductive HookResult where
  | ok
  | raises (e : PyExc)
deriving DecidableEq, Repr

/-- The observable state of a `BaseService` (`src/services/base.py`), plus the
behaviour of the subclass hooks `_initialize` / `_start` / `_stop` /
`_cleanup`, each modelled by the outcome it produces when awaited.
`healthTask` records whether the background health-check task is live, and
`startTime` is an abstract timestamp. -/
structure Service where
  name : String
  status : ServiceStatus
  lastError : Option PyExc
  startTime : Option Nat
  healthTask : Bool
  initHook : HookResult
  startHook : HookResult
  stopHook : HookResult
  cleanupHook : HookResult
deriving DecidableEq, Repr

/-- Result of one lifecycle call: the service state afterwards, the exception
it raised (if any), and whether the internal subclass hook was awaited. -/
structure StepResult where
  state : Service
  raised : Option PyExc
  hookInvoked : Bool
deriving DecidableEq, Repr

/-- `BaseService.initialize` (base.py lines 38-52): under the lock, return at
once unless the status is UNINITIALIZED; otherwise run `_initialize`, moving
to INITIALIZED on success, and on failure set ERROR, store the exception and
re-raise it. -/
def Service.initializeCall (s : Service) : StepResult :=
  if s.status ≠ ServiceStatus.uninitialized then ⟨s, none, false⟩
  else
    match s.initHook with
    | HookResult.ok => ⟨{ s with status := ServiceStatus.initialized }, none, true⟩
    | HookResult.raises e =>
        ⟨{ s with status := ServiceStatus.error, lastError := some e }, some e, true⟩

/-- `BaseService.start` (base.py lines 54-72): under the lock, raise
`RuntimeError` unless the status is INITIALIZED; otherwise run `_start`,
moving to RUNNING, recording the start time and spawning the health-check
task on success, and on failure set ERROR, store the exception and re-raise. -/
def Service.startCall (s : Service) (now : Nat) : StepResult :=
  if s.status ≠ ServiceStatus.initialized then
    ⟨s, some ⟨ExcKind.runtimeError,
        "Service " ++ s.name ++ " must be initialized before starting"⟩, false⟩
  else
    match s.startHook with
    | HookResult.ok =>
        ⟨{ s with
            status := ServiceStatus.running
            startTime := some now
            healthTask := true }, none, true⟩
    | HookResult.raises e =>
        ⟨{ s with status := ServiceStatus.error, lastError := some e }, some e, true⟩

/-- `BaseService.stop` (base.py lines 74-90): under the lock, return at once
unless the status is RUNNING; otherwise cancel the health-check task, run
`_stop`, moving to STOPPED and clearing the start time on success, and on
failure set ERROR, store the exception and re-raise. -/
def Service.stopCall (s : Service) : StepResult :=
  if s.status ≠ ServiceStatus.running then ⟨s, none, false⟩
  else
    match s.stopHook with
    | HookResult.ok =>
        ⟨{ s with
            status := ServiceStatus.stopped
            startTime := none
            healthTask := false }, none, true⟩
    | HookResult.raises e =>
        ⟨{ s with
            status := ServiceStatus.error
            lastError := some e
            healthTask := false }, some e, true⟩

/-- Result of `BaseService.cleanup`: final service state and the exception it
re-raised, if any. -/
structure SvcCleanup where
  state : Service
  raised : Option PyExc
deriving DecidableEq, Repr

/-- `BaseService.cleanup` (base.py lines 103-111): `await self.stop()` then
`await self._cleanup()`; any exception is logged and re-raised. -/
def Service.cleanupCall (s : Service) : SvcCleanup :=
  let r := Service.stopCall s
  match r.raised with
  | some e => ⟨r.state, some e⟩
  | none =>
      match r.state.cleanupHook with
      | HookResult.ok => ⟨r.state, none⟩
      | HookResult.raises e => ⟨r.state, some e⟩

/-- The `ServiceManager` registry (`src/services/manager.py`): `_services` is
an insertion-ordered dict, modelled as an association list. -/
structure Manager where
  services : List (String × Service)
  managerInitFlag : Bool
deriving DecidableEq, Repr

/-- `ServiceManager.get_service` (manager.py lines 79-81):
`return self._services.get(name)` — a plain dict lookup returning `None`
(here `Option.none`) when the name is absent; it raises nothing. -/
def ServiceManager.get_service (m : Manager) (name : String) : Option Service :=
  (m.services.find? (fun p => p.1 == name)).map Prod.snd

/-- Result of `ServiceManager.cleanup`: the order in which the per-service
`cleanup` (hence `stop`) calls were issued, each service object afterwards,
the per-service exceptions that were caught and logged, and the manager. -/
structure CleanupResult where
  stopOrder : List String
  finalServices : List (String × Service)
  errors : List (String × PyExc)
  final : Manager
deriving DecidableEq, Repr

/-- `ServiceManager.cleanup` (manager.py lines 57-67): iterate the services
dict in reverse, call each service's `cleanup` inside `try/except` that logs
the error and continues; finally clear the dict and the initialized flag. -/
def ServiceManager.cleanup (m : Manager) : CleanupResult :=
  let steps := m.services.reverse.map (fun p => (p.1, Service.cleanupCall p.2))
  { stopOrder := steps.map Prod.fst
    finalServices := steps.map (fun q => (q.1, q.2.state))
    errors := steps.filterMap (fun q => q.2.raised.map (fun e => (q.1, e)))
    final := { services := [], managerInitFlag := false } }

/-- A discovered bot module as `ModuleLoader` (`src/core/loader.py`) records
it: its dotted path (the dict key), the dependency names extracted by
`_analyze_dependencies` from the `setup` signature (minus `bot`/`self`), and
the names `d` for which the module object has a `provide_d` attribute. -/
structure PyModule where
  name : String
  deps : List String
  provides : List String
deriving DecidableEq, Repr

/-- `ModuleLoader._find_dependency_providers` (loader.py lines 78-84): the
modules whose object carries a `provide_<dependency>` attribute. -/
def findDependencyProviders (mods : List PyModule) (dep : String) : List String :=
  (mods.filter (fun m => dep ∈ m.provides)).map (fun m => m.name)

/-- The node set of the dependency graph built in `_resolve_load_order` and
`_group_by_dependency_level`: every discovered module is added as a node
(providers of edges are themselves discovered modules). -/
def graphNodes (mods : List PyModule) : List String :=
  mods.map (fun m => m.name)

/-- The edge set of that graph: an edge provider → consumer for every
dependency a module declares and every provider of it (loader.py lines
64-69 and 104-109 build the same graph). -/
def graphEdges (mods : List PyModule) : List (String × String) :=
  mods.flatMap (fun m =>
    m.deps.flatMap (fun d =>
      (findDependencyProviders mods d).map (fun p => (p, m.name))))

/-- One step of Kahn's algorithm (the algorithm behind
`networkx.topological_sort`): the first remaining node with no incoming edge
from a remaining node.  Which ready node is taken first is a tie-break the
library does not specify and no verified property depends on. -/
def pickReady (edges : List (String × String)) (remaining : List String) :
    Option String :=
  remaining.find? (fun n => remaining.all (fun p => !(decide ((p, n) ∈ edges))))

/-- Kahn's algorithm: repeatedly emit a ready node and remove it; when no
node is ready (a cycle among the remaining nodes) the sort stops short. -/
def kahnList (edges : List (String × String)) : Nat → List String → List String
  | 0, _ => []
  | fuel + 1, remaining =>
    match pickReady edges remaining with
    | none => []
    | some n => n :: kahnList edges fuel (remaining.erase n)

/-- `networkx.topological_sort` on the graph: all nodes in topological order,
or `none` (the `NetworkXUnfeasible` exception) when a cycle prevents the
sort from consuming every node. -/
def topologicalSort (edges : List (String × String)) (nodes : List String) :
    Option (List String) :=
  let out := kahnList edges nodes.length nodes
  if out.length = nodes.length then some out else none

/-- `ModuleLoader._resolve_load_order` (loader.py lines 60-76): build the
graph, topologically sort it, append any modules the sort missed (provably
none), and on `NetworkXUnfeasible` raise
`ValueError("Circular dependency detected")`. -/
def resolveLoadOrder (mods : List PyModule) : Except PyExc (List String) :=
  let nodes := graphNodes mods
  match topologicalSort (graphEdges mods) nodes with
  | some ordered =>
      Except.ok (ordered ++ nodes.filter (fun n => !(ordered.contains n)))
  | none => Except.error ⟨ExcKind.valueError, "Circular dependency detected"⟩

/-- `u` reaches `v` along one or more graph edges. -/
inductive Reaches (edges : List (String × String)) : String → String → Prop
  | single {u v : String} : (u, v) ∈ edges → Reaches edges u v
  | cons {u v w : String} : (u, v) ∈ edges → Reaches edges v w → Reaches edges u w

/-- The dependency graph contains a (directed) cycle. -/
def HasCycle (edges : List (String × String)) : Prop :=
  ∃ n, Reaches edges n n

/-- Successors of a node, in edge order. -/
def successors (edges : List (String × String)) (n : String) : List String :=
  edges.filterMap (fun e => if e.1 = n then some e.2 else none)

/-- The depth-first enumeration behind `networkx.all_simple_paths`: extend
the current duplicate-free path `path`, emitting it whenever the next node is
the target.  Nodes already on the path are never revisited. -/
def simplePathsDFS (edges : List (String × String)) (target : String) :
    Nat → List String → List (List String)
  | 0, _ => []
  | fuel + 1, path =>
    match path.getLast? with
    | none => []
    | some cur =>
      (successors edges cur).flatMap (fun w =>
        if w ∈ path then []
        else
          (if w = target then [path ++ [w]] else []) ++
            simplePathsDFS edges target fuel (path ++ [w]))

/-- `networkx.all_simple_paths(G, s, t)`: all duplicate-free paths from `s`
to `t`; when `s = t` only the trivial single-node path qualifies (the start
node is on the path from the outset, so no walk may return to it). -/
def allSimplePaths (edges : List (String × String)) (numNodes : Nat)
    (s t : String) : List (List String) :=
  (if s = t then [[s]] else []) ++ simplePathsDFS edges t numNodes [s]

/-- The per-node level computed in `_group_by_dependency_level` (loader.py
lines 111-117): `paths = [len(p) for p in nx.all_simple_paths(graph, node,
node)]; level = max(paths) if paths else 0` (for `Nat`, `max` with default
`0` is the fold of `max` over the list). -/
def nodeLevel (edges : List (String × String)) (numNodes : Nat)
    (n : String) : Nat :=
  ((allSimplePaths edges numNodes n n).map List.length).foldr max 0

/-- `ModuleLoader._group_by_dependency_level` (loader.py lines 100-120):
bucket the nodes by their computed level and return the buckets by ascending
level key (`for level in sorted(levels.keys())`), each bucket in node
insertion order. -/
def groupByDependencyLevel (mods : List PyModule) (loadOrder : List String) :
    List (List String) :=
  let edges := graphEdges mods
  let lvl : String → Nat := fun n => nodeLevel edges loadOrder.length n
  let maxLvl : Nat := (loadOrder.map lvl).foldr max 0
  ((List.range (maxLvl + 1)).map
      (fun k => loadOrder.filter (fun n => lvl n = k))).filter
    (fun g => !g.isEmpty)

/-- The mutable state of a `ModuleLoader`: the discovered modules (with their
dependency and provider data) and the set of already-loaded module paths. -/
structure LoaderState where
  modules : List PyModule
  loaded : List String
deriving DecidableEq, Repr

/-- `self.dependencies.get(module_path, set())`. -/
def depsOf (L : LoaderState) (path : String) : List String :=
  match L.modules.find? (fun m => m.name == path) with
  | some m => m.deps
  | none => []

/-- A value injected into a module's `setup` call. -/
inductive DepValue where
  | bot
  | provided (provider dep : String)
  | serviceHandle (dep : String)
  | pyNone
deriving DecidableEq, Repr

/-- `get_services()` (`src/services/__init__.py`): it returns
`ServiceManager.get_instance()`, but the `ServiceManager` class in
`src/services/manager.py` defines no `get_instance`, so the call raises
`AttributeError` before any lookup happens. -/
def get_services : Except PyExc Manager :=
  Except.error ⟨ExcKind.attributeError,
    "type object ServiceManager has no attribute get_instance"⟩

/-- The service-manager fallback of `ModuleLoader.load_module` (loader.py
lines 136-142): `deps[dep] = get_services().get_service(dep)` inside
`try/except KeyError`, the handler raising
`ValueError(f"Dependency not found: {dep}")`.  `get_services()` raises
`AttributeError`, which the `KeyError` handler does not catch; and even with
a working singleton, `get_service` is `dict.get`, which returns `None`
instead of raising, so the `ValueError` branch is unreachable. -/
def tryServiceDep (dep : String) : Except PyExc DepValue :=
  let attempt : Except PyExc DepValue :=
    match get_services with
    | Except.error e => Except.error e
    | Except.ok mgr =>
        match ServiceManager.get_service mgr dep with
        | some _ => Except.ok (DepValue.serviceHandle dep)
        | none => Except.ok DepValue.pyNone
  match attempt with
  | Except.error e =>
      if e.kind = ExcKind.keyError then
        Except.error ⟨ExcKind.valueError, "Dependency not found: " ++ dep⟩
      else Except.error e
  | Except.ok v => Except.ok v

/-- The dependency-collection loop of `load_module` (loader.py lines
129-142): resolve each declared dependency, preferring the first sibling
provider (`next(iter(self._find_dependency_providers(dep)), None)`), else
falling back to the service manager; the first exception aborts the loop. -/
def resolveDeps (mods : List PyModule) :
    List String → Except PyExc (List (String × DepValue))
  | [] => Except.ok []
  | d :: rest =>
    let v : Except PyExc DepValue :=
      match (findDependencyProviders mods d).head? with
      | some p => Except.ok (DepValue.provided p d)
      | none => tryServiceDep d
    match v with
    | Except.error e => Except.error e
    | Except.ok dv =>
        match resolveDeps mods rest with
        | Except.error e => Except.error e
        | Except.ok rest2 => Except.ok ((d, dv) :: rest2)

/-- Result of `load_module`: the exception it raised (if any), the loader
state afterwards, and the `setup` invocations it performed, each with the
keyword arguments passed. -/
structure LoadModuleResult where
  raised : Option PyExc
  state : LoaderState
  setupCalls : List (String × List (String × DepValue))
deriving DecidableEq, Repr

/-- `ModuleLoader.load_module` (loader.py lines 122-150): return at once if
the module is already loaded; otherwise collect `{"bot": bot}` plus the
resolved dependencies, await `setup(**deps)`, and record the module as
loaded.  Any exception is logged and re-raised. -/
def ModuleLoader.load_module (L : LoaderState) (path : String) :
    LoadModuleResult :=
  if path ∈ L.loaded then ⟨none, L, []⟩
  else
    match resolveDeps L.modules (depsOf L path) with
    | Except.error e => ⟨some e, L, []⟩
    | Except.ok resolved =>
        ⟨none, { L with loaded := L.loaded ++ [path] },
          [(path, ("bot", DepValue.bot) :: resolved)]⟩

/-! ### Concrete instances used by witnesses and counterexamples -/

/-- A sample lifecycle-hook exception. -/
def bad : PyExc := ⟨ExcKind.runtimeError, "boom"⟩

/-- A service in status INITIALIZED with benign hooks. -/
def svcInited : Service :=
  ⟨"cache", ServiceStatus.initialized, none, none, false,
    HookResult.ok, HookResult.ok, HookResult.ok, HookResult.ok⟩

/-- A service in status RUNNING with benign hooks. -/
def svcRunning : Service :=
  ⟨"cache", ServiceStatus.running, none, some 0, true,
    HookResult.ok, HookResult.ok, HookResult.ok, HookResult.ok⟩

/-- An UNINITIALIZED service whose `_initialize` raises. -/
def svcBadInit : Service :=
  ⟨"cache", ServiceStatus.uninitialized, none, none, false,
    HookResult.raises bad, HookResult.ok, HookResult.ok, HookResult.ok⟩

/-- An INITIALIZED service whose `_start` raises. -/
def svcBadStart : Service :=
  ⟨"cache", ServiceStatus.initialized, none, none, false,
    HookResult.ok, HookResult.raises bad, HookResult.ok, HookResult.ok⟩

/-- A RUNNING service whose `_stop` raises. -/
def svcBadStop : Service :=
  ⟨"cache", ServiceStatus.running, none, some 0, true,
    HookResult.ok, HookResult.ok, HookResult.raises bad, HookResult.ok⟩

/-! ### Lifecycle state machine: C6, C7, C8 -/

/-- C8: for every service whose status is not UNINITIALIZED (in particular an
already INITIALIZED one), `initialize` returns without invoking the internal
`_initialize` hook and leaves status, last error and start timestamp (the
whole service state) unchanged. -/
theorem initializeCall_noop_outside_uninitialized (s : Service)
    (h : s.status ≠ ServiceStatus.uninitialized) :
    Service.initializeCall s = ⟨s, none, false⟩ := by
  simp [Service.initializeCall, h]

/-- Witness for C8 at a concrete INITIALIZED service. -/
theorem initializeCall_noop_witness :
    svcInited.status ≠ ServiceStatus.uninitialized ∧
      Service.initializeCall svcInited = ⟨svcInited, none, false⟩ :=
  ⟨by decide, initializeCall_noop_outside_uninitialized svcInited (by decide)⟩

/-- C7 counterexample: on a service already RUNNING, `start` does not return
silently — it raises `RuntimeError`, refuting the claimed no-op. -/
theorem startCall_on_running_counterexample :
    (Service.startCall svcRunning 1).raised ≠ none ∧
      (Service.startCall svcRunning 1).raised =
        some ⟨ExcKind.runtimeError,
          "Service cache must be initialized before starting"⟩ := by
  constructor
  · simp [Service.startCall, svcRunning]
  · simp [Service.startCall, svcRunning]

/-- C7 amended: for every service whose status is not INITIALIZED (e.g.
already RUNNING), `start` raises `RuntimeError` naming the service, without
invoking the internal `_start` hook and without changing any field. -/
theorem startCall_raises_outside_initialized (s : Service) (now : Nat)
    (h : s.status ≠ ServiceStatus.initialized) :
    Service.startCall s now =
      ⟨s, some ⟨ExcKind.runtimeError,
          "Service " ++ s.name ++ " must be initialized before starting"⟩,
        false⟩ := by
  simp [Service.startCall, h]

/-- Witness for the amended C7 at a concrete RUNNING service. -/
theorem startCall_raises_witness :
    Service.startCall svcRunning 1 =
      ⟨svcRunning, some ⟨ExcKind.runtimeError,
          "Service " ++ svcRunning.name ++ " must be initialized before starting"⟩,
        false⟩ :=
  startCall_raises_outside_initialized svcRunning 1 (by decide)

/-- C6: whenever a lifecycle hook raises `e` from the matching source state,
the corresponding operation sets status ERROR, stores `e` as the last error
and re-raises the same `e` (`stop` additionally cancels the health task,
which it does before running `_stop`). -/
theorem lifecycle_error_recorded_and_reraised (s : Service) (e : PyExc)
    (now : Nat) :
    (s.status = ServiceStatus.uninitialized → s.initHook = HookResult.raises e →
      Service.initializeCall s =
        ⟨{ s with status := ServiceStatus.error, lastError := some e },
          some e, true⟩) ∧
    (s.status = ServiceStatus.initialized → s.startHook = HookResult.raises e →
      Service.startCall s now =
        ⟨{ s with status := ServiceStatus.error, lastError := some e },
          some e, true⟩) ∧
    (s.status = ServiceStatus.running → s.stopHook = HookResult.raises e →
      Service.stopCall s =
        ⟨{ s with
            status := ServiceStatus.error
            lastError := some e
            healthTask := false }, some e, true⟩) := by
  refine ⟨?_, ?_, ?_⟩ <;> intro h1 h2 <;>
    simp [Service.initializeCall, Service.startCall, Service.stopCall, h1, h2]

/-- Witness for C6 at concrete services whose hooks raise. -/
theorem lifecycle_error_witness :
    Service.initializeCall svcBadInit =
      ⟨{ svcBadInit with status := ServiceStatus.error, lastError := some bad },
        some bad, true⟩ ∧
    Service.startCall svcBadStart 0 =
      ⟨{ svcBadStart with status := ServiceStatus.error, lastError := some bad },
        some bad, true⟩ ∧
    Service.stopCall svcBadStop =
      ⟨{ svcBadStop with
          status := ServiceStatus.error
          lastError := some bad
          healthTask := false }, some bad, true⟩ :=
  ⟨(lifecycle_error_recorded_and_reraised svcBadInit bad 0).1 rfl rfl,
    (lifecycle_error_recorded_and_reraised svcBadStart bad 0).2.1 rfl rfl,
    (lifecycle_error_recorded_and_reraised svcBadStop bad 0).2.2 rfl rfl⟩

/-! ### Service registry lookup: C9 -/

/-- A manager holding the single service `"cache"`. -/
def mgrOne : Manager := ⟨[("cache", svcRunning)], true⟩

/-- Association-list lookup: with duplicate-free keys, `find?` on the key
returns exactly the stored entry. -/
theorem find_assoc_eq (l : List (String × Service)) (name : String)
    (s : Service) (hmem : (name, s) ∈ l) (hnd : (l.map Prod.fst).Nodup) :
    l.find? (fun p => p.1 == name) = some (name, s) := by
  induction l with
  | nil => cases hmem
  | cons hd tl ih =>
    rw [List.map_cons, List.nodup_cons] at hnd
    rcases List.mem_cons.mp hmem with hc | hc
    · subst hc
      simp [List.find?]
    · by_cases hk : hd.1 = name
      · exact absurd (hk ▸ List.mem_map.mpr ⟨(name, s), hc, rfl⟩) hnd.1
      · have hb : (hd.1 == name) = false := by simpa using hk
        simp [List.find?, hb, ih hc hnd.2]

/-- C9 counterexample: `get_service` on a name absent from the registry
evaluates to `none` — the Python `dict.get` simply returns `None`; the call
has no exception channel, so no NotFound error is ever reported. -/
theorem get_service_missing_counterexample :
    ServiceManager.get_service mgrOne "db" = none := by
  simp [ServiceManager.get_service, mgrOne, List.find?]

/-- C9 amended: `get_service` is a direct dict lookup — it returns `none`
(Python `None`, not an error) for every absent name, and the stored instance
for every registered name. -/
theorem get_service_lookup (m : Manager) (name : String) :
    ((∀ p ∈ m.services, p.1 ≠ name) →
        ServiceManager.get_service m name = none) ∧
      (∀ s, (name, s) ∈ m.services → (m.services.map Prod.fst).Nodup →
        ServiceManager.get_service m name = some s) := by
  constructor
  · intro h
    have : m.services.find? (fun p => p.1 == name) = none := by
      rw [List.find?_eq_none]
      intro p hp
      simpa using h p hp
    simp [ServiceManager.get_service, this]
  · intro s hmem hnd
    simp [ServiceManager.get_service, find_assoc_eq m.services name s hmem hnd]

/-- Witness for the amended C9 on a concrete registry. -/
theorem get_service_lookup_witness :
    ServiceManager.get_service mgrOne "db" = none ∧
      ServiceManager.get_service mgrOne "cache" = some svcRunning :=
  ⟨(get_service_lookup mgrOne "db").1 (by decide),
    (get_service_lookup mgrOne "cache").2 svcRunning (by simp [mgrOne])
      (by decide)⟩

/-! ### Module loading: C10 and C4 -/

/-- C10: `load_module` on an already-loaded module returns immediately: no
exception, no `setup` invocation, and the loader state (loaded set,
discovered modules, dependency map) unchanged. -/
theorem load_module_already_loaded (L : LoaderState) (path : String)
    (h : path ∈ L.loaded) :
    ModuleLoader.load_module L path = ⟨none, L, []⟩ := by
  simp [ModuleLoader.load_module, h]

/-- The unit of spec scenario 3: module `x` depending on `missing`, with no
provider and no registered service of that name. -/
def modX : PyModule := ⟨"x", ["missing"], []⟩

/-- Loader state that has discovered only `x`; nothing loaded yet. -/
def loaderX : LoaderState := ⟨[modX], []⟩

/-- Witness for C10: a second `load_module "x"` after `x` is recorded as
loaded is a no-op. -/
theorem load_module_already_loaded_witness :
    ModuleLoader.load_module ⟨[modX], ["x"]⟩ "x" = ⟨none, ⟨[modX], ["x"]⟩, []⟩ :=
  load_module_already_loaded ⟨[modX], ["x"]⟩ "x" (by simp)

/-- `name` occurs verbatim inside `msg`. -/
def mentions (msg name : String) : Prop := name.data <:+: msg.data

instance (msg name : String) : Decidable (mentions msg name) :=
  List.decidableInfix name.data msg.data

/-- C4 (code bug, spec scenario 3): loading `x`, whose dependency `missing`
has no provider and no registered service, does abort before `setup` — but
not with a configuration error naming `missing`.  `get_services()` calls the
nonexistent `ServiceManager.get_instance`, so an `AttributeError` escapes the
`except KeyError` guard and the `ValueError("Dependency not found: ...")`
branch is unreachable. -/
theorem load_module_missing_dep_bug :
    ModuleLoader.load_module loaderX "x" =
      ⟨some ⟨ExcKind.attributeError,
          "type object ServiceManager has no attribute get_instance"⟩,
        loaderX, []⟩ ∧
      ¬ mentions "type object ServiceManager has no attribute get_instance"
        "missing" := by
  constructor
  · rfl
  · decide

/-! ### Manager teardown: C5 -/

/-- A RUNNING service named `A` with benign hooks. -/
def svcA : Service :=
  ⟨"A", ServiceStatus.running, none, some 0, true,
    HookResult.ok, HookResult.ok, HookResult.ok, HookResult.ok⟩

/-- A RUNNING service named `B` whose `_stop` raises. -/
def svcB : Service :=
  ⟨"B", ServiceStatus.running, none, some 1, true,
    HookResult.ok, HookResult.ok, HookResult.raises bad, HookResult.ok⟩

/-- A manager that started `A` then `B` (insertion order = start order). -/
def mgrAB : Manager := ⟨[("A", svcA), ("B", svcB)], true⟩

/-- C5: `ServiceManager.cleanup` walks the registry in reverse insertion
order; since `ServiceManager.initialize` starts the services in insertion
order, for services that all reached RUNNING this is the exact reverse of
the order in which they reached RUNNING.  A `stop` failure is caught by the
per-service `try/except`, so every earlier-started service is still stopped
(the stop order always covers the whole registry), and the failing service
records the exception: status ERROR, the exception stored as its last error,
and the pair logged in the collected errors. -/
theorem cleanup_reverse_and_fault_isolated (m : Manager)
    (runningOrder : List String)
    (hrun : runningOrder = m.services.map Prod.fst) :
    (ServiceManager.cleanup m).stopOrder = runningOrder.reverse ∧
      (∀ n s e, (n, s) ∈ m.services → s.status = ServiceStatus.running →
        s.stopHook = HookResult.raises e →
        (n, { s with
            status := ServiceStatus.error
            lastError := some e
            healthTask := false }) ∈ (ServiceManager.cleanup m).finalServices ∧
          (n, e) ∈ (ServiceManager.cleanup m).errors) := by
  subst hrun
  constructor
  · simp [ServiceManager.cleanup]
  · intro n s e hmem hst hhook
    have hstep : Service.cleanupCall s =
        ⟨{ s with
            status := ServiceStatus.error
            lastError := some e
            healthTask := false }, some e⟩ := by
      simp [Service.cleanupCall, Service.stopCall, hst, hhook]
    have hmem2 : (n, Service.cleanupCall s) ∈
        m.services.reverse.map (fun p => (p.1, Service.cleanupCall p.2)) :=
      List.mem_map_of_mem _ (List.mem_reverse.mpr hmem)
    constructor
    · have := List.mem_map_of_mem (fun q => (q.1, q.2.state)) hmem2
      rw [hstep] at this
      simpa [ServiceManager.cleanup] using this
    · rw [ServiceManager.cleanup]
      simp only [List.mem_filterMap]
      exact ⟨(n, Service.cleanupCall s), hmem2, by rw [hstep]; rfl⟩

/-- Witness for C5: services started as [A, B]; B's `_stop` raises; cleanup
stops B first, still stops A, and records B's error. -/
theorem cleanup_reverse_witness :
    (ServiceManager.cleanup mgrAB).stopOrder = ["A", "B"].reverse ∧
      ("B", { svcB with
          status := ServiceStatus.error
          lastError := some bad
          healthTask := false }) ∈ (ServiceManager.cleanup mgrAB).finalServices ∧
      ("B", bad) ∈ (ServiceManager.cleanup mgrAB).errors :=
  ⟨(cleanup_reverse_and_fault_isolated mgrAB ["A", "B"] rfl).1,
    ((cleanup_reverse_and_fault_isolated mgrAB ["A", "B"] rfl).2 "B" svcB bad
        (by simp [mgrAB]) rfl rfl).1,
    ((cleanup_reverse_and_fault_isolated mgrAB ["A", "B"] rfl).2 "B" svcB bad
        (by simp [mgrAB]) rfl rfl).2⟩

/-! ### Kahn's algorithm: basic properties -/

/-- A node picked by `pickReady` is remaining and has no incoming edge from a
remaining node. -/
theorem pickReady_mem_and_ready {edges : List (String × String)}
    {remaining : List String} {n : String}
    (h : pickReady edges remaining = some n) :
    n ∈ remaining ∧ ∀ p ∈ remaining, (p, n) ∉ edges := by
  unfold pickReady at h
  refine ⟨List.mem_of_find?_eq_some h, ?_⟩
  intro p hp
  have hpred := List.find?_some h
  rw [List.all_eq_true] at hpred
  simpa using hpred p hp

/-- When `pickReady` finds nothing, every remaining node has a predecessor
among the remaining nodes. -/
theorem pickReady_none_stuck {edges : List (String × String)}
    {remaining : List String} (h : pickReady edges remaining = none) :
    ∀ n ∈ remaining, ∃ p ∈ remaining, (p, n) ∈ edges := by
  intro n hn
  unfold pickReady at h
  have hall := List.find?_eq_none.mp h n hn
  simp only [List.all_eq_true, Bool.not_eq_true', decide_eq_false_iff_not] at hall
  push_neg at hall
  exact hall

/-- Kahn's output only contains remaining nodes. -/
theorem kahnList_subset (edges : List (String × String)) :
    ∀ (fuel : Nat) (remaining : List String),
      kahnList edges fuel remaining ⊆ remaining := by
  intro fuel
  induction fuel with
  | zero => intro remaining x hx; simp [kahnList] at hx
  | succ f ih =>
    intro remaining x hx
    rw [kahnList] at hx
    cases hpick : pickReady edges remaining with
    | none => rw [hpick] at hx; simp at hx
    | some n =>
      rw [hpick] at hx
      rcases List.mem_cons.mp hx with rfl | hx2
      · exact (pickReady_mem_and_ready hpick).1
      · exact List.mem_of_mem_erase (ih _ hx2)

/-- Kahn's output has no duplicates when the node list has none. -/
theorem kahnList_nodup (edges : List (String × String)) :
    ∀ (fuel : Nat) (remaining : List String), remaining.Nodup →
      (kahnList edges fuel remaining).Nodup := by
  intro fuel
  induction fuel with
  | zero => intro remaining _; simp [kahnList]
  | succ f ih =>
    intro remaining hnd
    rw [kahnList]
    cases hpick : pickReady edges remaining with
    | none => simp
    | some n =>
      simp only [List.nodup_cons]
      refine ⟨?_, ih _ (hnd.erase n)⟩
      intro hmem
      have := kahnList_subset edges f (remaining.erase n) hmem
      exact absurd ((hnd.mem_erase_iff).mp this).1 (by simp)

/-- Topological property of Kahn's output: an edge whose source is still
remaining and whose target is emitted appears with source strictly before
target (as the ordered sublist `[u, v]`). -/
theorem kahnList_pairs (edges : List (String × String)) :
    ∀ (fuel : Nat) (remaining : List String) (u v : String),
      v ∈ kahnList edges fuel remaining → u ∈ remaining → (u, v) ∈ edges →
      [u, v].Sublist (kahnList edges fuel remaining) := by
  intro fuel
  induction fuel with
  | zero => intro remaining u v hv _ _; simp [kahnList] at hv
  | succ f ih =>
    intro remaining u v hv hu he
    rw [kahnList] at hv ⊢
    cases hpick : pickReady edges remaining with
    | none => rw [hpick] at hv; simp at hv
    | some n =>
      rw [hpick] at hv
      rcases List.mem_cons.mp hv with rfl | hv2
      · exact absurd he ((pickReady_mem_and_ready hpick).2 u hu)
      · by_cases hun : u = n
        · subst hun
          exact (List.singleton_sublist.mpr hv2).cons₂ u
        · have hu2 : u ∈ remaining.erase n := (List.mem_erase_of_ne hun).mpr hu
          exact (ih _ u v hv2 hu2 he).cons n

/-! ### Cycle pumping: a stuck sort exposes a cycle -/

/-- If every node of `R` has a predecessor in `R`, arbitrarily long
edge-chains inside `R` end at any chosen node. -/
theorem pathIn_exists (edges : List (String × String)) (R : List String)
    (hpred : ∀ n ∈ R, ∃ p ∈ R, (p, n) ∈ edges) :
    ∀ (k : Nat), ∀ n ∈ R, ∃ l : List String,
      l.length = k + 1 ∧ l.getLast? = some n ∧
        List.Chain' (fun a b => (a, b) ∈ edges) l ∧ ∀ x ∈ l, x ∈ R := by
  intro k
  induction k with
  | zero =>
    intro n hn
    exact ⟨[n], rfl, rfl, List.chain'_singleton n, by simpa using hn⟩
  | succ k ih =>
    intro n hn
    obtain ⟨l, hlen, hlast, hchain, hmem⟩ := ih n hn
    cases l with
    | nil => simp at hlen
    | cons a t =>
      obtain ⟨p, hp, hpe⟩ := hpred a (hmem a (List.mem_cons_self a t))
      refine ⟨p :: a :: t, by simpa using hlen, ?_, ?_, ?_⟩
      · rw [List.getLast?_cons_cons]; exact hlast
      · exact List.chain'_cons.mpr ⟨hpe, hchain⟩
      · intro x hx
        rcases List.mem_cons.mp hx with rfl | hx2
        · exact hp
        · exact hmem x hx2

/-- A list over `R` longer than `R` repeats an element, as the sublist
`[x, x]`. -/
theorem long_list_duplicate (l R : List String) (hsub : ∀ x ∈ l, x ∈ R)
    (hlen : R.length < l.length) : ∃ x, [x, x].Sublist l := by
  have hnd : ¬ l.Nodup := by
    intro hnd
    have := (List.subperm_of_subset hnd fun x hx => hsub x hx).length_le
    omega
  obtain ⟨x, hdup⟩ := List.exists_duplicate_iff_not_nodup.mpr hnd
  exact ⟨x, List.duplicate_iff_sublist.mp hdup⟩

/-- Decompose an ordered pair-sublist into the three surrounding segments. -/
theorem pair_sublist_split {α : Type} (a b : α) :
    ∀ l : List α, [a, b].Sublist l →
      ∃ l1 l2 l3, l = l1 ++ (a :: (l2 ++ (b :: l3))) := by
  intro l
  induction l with
  | nil => intro h; cases h
  | cons c t ih =>
    intro h
    cases h with
    | cons _ h2 =>
      obtain ⟨l1, l2, l3, rfl⟩ := ih h2
      exact ⟨c :: l1, l2, l3, rfl⟩
    | cons₂ _ h2 =>
      obtain ⟨l2, l3, rfl⟩ := List.append_of_mem (List.singleton_sublist.mp h2)
      exact ⟨[], l2, l3, rfl⟩

/-- An edge-chain starting at `a` reaches every later member. -/
theorem chain'_cons_reach (edges : List (String × String)) :
    ∀ (t : List String) (a b : String),
      List.Chain' (fun u v => (u, v) ∈ edges) (a :: t) → b ∈ t →
        Reaches edges a b := by
  intro t
  induction t with
  | nil => intro a b _ hb; cases hb
  | cons c t ih =>
    intro a b hchain hb
    have h1 := (List.chain'_cons.mp hchain).1
    have h2 := (List.chain'_cons.mp hchain).2
    rcases List.mem_cons.mp hb with rfl | hb2
    · exact Reaches.single h1
    · exact Reaches.cons h1 (ih c b h2 hb2)

/-- If every remaining node has a remaining predecessor (the situation in
which Kahn's algorithm stalls), the graph has a cycle. -/
theorem stuck_cycle (edges : List (String × String)) (R : List String)
    (hne : R ≠ []) (hpred : ∀ n ∈ R, ∃ p ∈ R, (p, n) ∈ edges) :
    HasCycle edges := by
  obtain ⟨n0, hn0⟩ := List.exists_mem_of_ne_nil R hne
  obtain ⟨l, hlen, _, hchain, hmem⟩ :=
    pathIn_exists edges R hpred R.length n0 hn0
  obtain ⟨x, hxx⟩ := long_list_duplicate l R hmem (by omega)
  obtain ⟨l1, l2, l3, rfl⟩ := pair_sublist_split x x l hxx
  have hsuff : List.Chain' (fun u v => (u, v) ∈ edges) (x :: (l2 ++ x :: l3)) :=
    (List.chain'_append.mp
      (show List.Chain' (fun u v => (u, v) ∈ edges)
          (l1 ++ (x :: (l2 ++ x :: l3))) from hchain)).2.1
  exact ⟨x, chain'_cons_reach edges (l2 ++ x :: l3) x x hsuff (by simp)⟩

/-- On a cycle-free graph, Kahn's algorithm emits every node. -/
theorem kahnList_complete (edges : List (String × String))
    (hac : ¬ HasCycle edges) :
    ∀ (fuel : Nat) (remaining : List String), remaining.length ≤ fuel →
      (kahnList edges fuel remaining).length = remaining.length := by
  intro fuel
  induction fuel with
  | zero =>
    intro remaining hle
    have : remaining = [] := List.length_eq_zero.mp (Nat.le_zero.mp hle)
    subst this
    simp [kahnList]
  | succ f ih =>
    intro remaining hle
    rw [kahnList]
    cases hpick : pickReady edges remaining with
    | none =>
      cases hre : remaining with
      | nil => simp
      | cons a t =>
        exact absurd
          (stuck_cycle edges remaining (by simp [hre])
            (pickReady_none_stuck hpick)) hac
    | some n =>
      have hn : n ∈ remaining := (pickReady_mem_and_ready hpick).1
      have hlen : (remaining.erase n).length = remaining.length - 1 :=
        List.length_erase_of_mem hn
      have h1 : 0 < remaining.length := List.length_pos_of_mem hn
      have := ih (remaining.erase n) (by omega)
      simp only [List.length_cons, this]
      omega

/-! ### The dependency graph: edges live among the nodes -/

/-- Both endpoints of a graph edge are discovered module names. -/
theorem graphEdges_mem_nodes {mods : List PyModule} {u v : String}
    (h : (u, v) ∈ graphEdges mods) :
    u ∈ graphNodes mods ∧ v ∈ graphNodes mods := by
  simp only [graphEdges, List.mem_flatMap, List.mem_map] at h
  obtain ⟨m, hm, d, _, p, hp, heq⟩ := h
  cases heq
  simp only [graphNodes]
  constructor
  · simp only [findDependencyProviders, List.mem_map, List.mem_filter] at hp
    obtain ⟨q, ⟨hq, _⟩, rfl⟩ := hp
    exact List.mem_map.mpr ⟨q, hq, rfl⟩
  · exact List.mem_map.mpr ⟨m, hm, rfl⟩

/-- Every declared dependency with a provider contributes its edge. -/
theorem graphEdges_intro {mods : List PyModule} {m : PyModule} {d p : String}
    (hm : m ∈ mods) (hd : d ∈ m.deps)
    (hp : p ∈ findDependencyProviders mods d) :
    (p, m.name) ∈ graphEdges mods := by
  simp only [graphEdges, List.mem_flatMap, List.mem_map]
  exact ⟨m, hm, d, hd, p, hp, rfl⟩

/-- A pair-sublist of a duplicate-free list orders the indices. -/
theorem pair_sublist_indexOf {α : Type} [DecidableEq α] (a b : α) :
    ∀ l : List α, l.Nodup → [a, b].Sublist l → l.indexOf a < l.indexOf b := by
  intro l
  induction l with
  | nil => intro _ h; cases h
  | cons c t ih =>
    intro hnd h
    rw [List.nodup_cons] at hnd
    cases h with
    | cons _ h2 =>
      have ha : a ∈ t := h2.subset (by simp)
      have hb : b ∈ t := h2.subset (by simp)
      have hac : c ≠ a := fun e => hnd.1 (e ▸ ha)
      have hbc : c ≠ b := fun e => hnd.1 (e ▸ hb)
      rw [List.indexOf_cons_ne t hac, List.indexOf_cons_ne t hbc]
      exact Nat.succ_lt_succ (ih hnd.2 h2)
    | cons₂ _ h2 =>
      have hb : b ∈ t := List.singleton_sublist.mp h2
      have hab : a ≠ b := fun e => hnd.1 (e ▸ hb)
      rw [List.indexOf_cons_self, List.indexOf_cons_ne t hab]
      exact Nat.succ_pos _

/-- Reachability shifts indices in any list in which every edge appears as an
ordered pair-sublist. -/
theorem reaches_indexOf_lt {edges : List (String × String)}
    {out : List String} (hnd : out.Nodup)
    (hpair : ∀ a b, (a, b) ∈ edges → [a, b].Sublist out) :
    ∀ u v, Reaches edges u v → out.indexOf u < out.indexOf v := by
  intro u v h
  induction h with
  | single he => exact pair_sublist_indexOf _ _ _ hnd (hpair _ _ he)
  | cons he _ ih =>
    exact Nat.lt_trans (pair_sublist_indexOf _ _ _ hnd (hpair _ _ he)) ih

/-! ### Load-order resolution: C2 and C3 -/

/-- Every `Reaches` witness starts along some edge. -/
theorem reaches_src {edges : List (String × String)} {u v : String}
    (h : Reaches edges u v) : ∃ w, (u, w) ∈ edges := by
  cases h with
  | single he => exact ⟨v, he⟩
  | cons he _ => exact ⟨_, he⟩

/-- Every `Reaches` witness arrives along some edge. -/
theorem reaches_tgt {edges : List (String × String)} {u v : String}
    (h : Reaches edges u v) : ∃ w, (w, v) ∈ edges := by
  induction h with
  | single he => exact ⟨_, he⟩
  | cons _ _ ih => exact ih

/-- C2 amended: on every cyclic dependency graph (over duplicate-free module
names) `_resolve_load_order` raises
`ValueError("Circular dependency detected")` — it never returns an
ordering; the message, however, names no unit. -/
theorem resolveLoadOrder_cycle_error (mods : List PyModule)
    (hnd : (graphNodes mods).Nodup) (hcyc : HasCycle (graphEdges mods)) :
    resolveLoadOrder mods =
      Except.error ⟨ExcKind.valueError, "Circular dependency detected"⟩ := by
  have hne : (kahnList (graphEdges mods) (graphNodes mods).length
      (graphNodes mods)).length ≠ (graphNodes mods).length := by
    intro hfull
    have hsub := kahnList_subset (graphEdges mods) (graphNodes mods).length
      (graphNodes mods)
    have hnd2 := kahnList_nodup (graphEdges mods) (graphNodes mods).length
      (graphNodes mods) hnd
    have hperm :=
      (List.subperm_of_subset hnd2 hsub).perm_of_length_le (le_of_eq hfull.symm)
    have hpair : ∀ a b, (a, b) ∈ graphEdges mods →
        [a, b].Sublist (kahnList (graphEdges mods) (graphNodes mods).length
          (graphNodes mods)) := by
      intro a b hab
      have hends := graphEdges_mem_nodes hab
      exact kahnList_pairs _ _ _ a b (hperm.mem_iff.mpr hends.2) hends.1 hab
    obtain ⟨n, hr⟩ := hcyc
    exact absurd (reaches_indexOf_lt hnd2 hpair n n hr) (lt_irrefl _)
  simp only [resolveLoadOrder, topologicalSort]
  rw [if_neg hne]

/-- The cyclic pair of spec scenario 2 (units renamed so that neither name
occurs in the error text by accident): `alpha` provides `b` and needs `a`,
`beta` provides `a` and needs `b`. -/
def cyclicMods : List PyModule :=
  [⟨"alpha", ["a"], ["b"]⟩, ⟨"beta", ["b"], ["a"]⟩]

/-- C2 counterexample: on the cyclic pair the raised error is the constant
`ValueError("Circular dependency detected")`, whose message mentions neither
involved unit — refuting "names at least one unit involved in the cycle". -/
theorem resolveLoadOrder_cycle_counterexample :
    resolveLoadOrder cyclicMods =
      Except.error ⟨ExcKind.valueError, "Circular dependency detected"⟩ ∧
      ¬ mentions "Circular dependency detected" "alpha" ∧
      ¬ mentions "Circular dependency detected" "beta" := by
  refine ⟨rfl, by decide, by decide⟩

/-- Witness for the amended C2 on the concrete cyclic pair. -/
theorem resolveLoadOrder_cycle_error_witness :
    resolveLoadOrder cyclicMods =
      Except.error ⟨ExcKind.valueError, "Circular dependency detected"⟩ :=
  resolveLoadOrder_cycle_error cyclicMods (by decide)
    ⟨"alpha", @Reaches.cons (graphEdges cyclicMods) "alpha" "beta" "alpha"
      (by decide) (@Reaches.single (graphEdges cyclicMods) "beta" "alpha"
        (by decide))⟩

/-- C3: on every acyclic dependency graph (over duplicate-free module names)
`_resolve_load_order` returns an order that is a permutation of the
registered modules — each exactly once — in which every provider of a
declared dependency appears strictly before the declaring module. -/
theorem resolveLoadOrder_acyclic_topological (mods : List PyModule)
    (hnd : (graphNodes mods).Nodup) (hac : ¬ HasCycle (graphEdges mods)) :
    ∃ order, resolveLoadOrder mods = Except.ok order ∧
      order.Perm (graphNodes mods) ∧
      ∀ m ∈ mods, ∀ d ∈ m.deps, ∀ p ∈ findDependencyProviders mods d,
        order.indexOf p < order.indexOf m.name := by
  have hfull := kahnList_complete (graphEdges mods) hac
    (graphNodes mods).length (graphNodes mods) (le_refl _)
  have hsub := kahnList_subset (graphEdges mods) (graphNodes mods).length
    (graphNodes mods)
  have hnd2 := kahnList_nodup (graphEdges mods) (graphNodes mods).length
    (graphNodes mods) hnd
  have hperm :=
    (List.subperm_of_subset hnd2 hsub).perm_of_length_le (le_of_eq hfull.symm)
  refine ⟨kahnList (graphEdges mods) (graphNodes mods).length (graphNodes mods),
    ?_, hperm, ?_⟩
  · have hfilter : (graphNodes mods).filter
        (fun n => !((kahnList (graphEdges mods) (graphNodes mods).length
          (graphNodes mods)).contains n)) = [] := by
      rw [List.filter_eq_nil_iff]
      intro a ha
      simpa using hperm.mem_iff.mpr ha
    simp only [resolveLoadOrder, topologicalSort]
    rw [if_pos hfull]
    exact congrArg Except.ok (by rw [hfilter, List.append_nil])
  · intro m hm d hd p hp
    have hedge := graphEdges_intro hm hd hp
    have hends := graphEdges_mem_nodes hedge
    exact pair_sublist_indexOf _ _ _ hnd2
      (kahnList_pairs _ _ _ p m.name (hperm.mem_iff.mpr hends.2) hends.1 hedge)

/-- The acyclic trio of spec scenario 1: `db` and `cache` provide themselves,
`chat` depends on both. -/
def chatMods : List PyModule :=
  [⟨"db", [], ["db"]⟩, ⟨"cache", [], ["cache"]⟩, ⟨"chat", ["db", "cache"], []⟩]

/-- The trio's graph — whose only edges point into `chat` and none leave
`chat` — has no cycle. -/
theorem chatMods_acyclic : ¬ HasCycle (graphEdges chatMods) := by
  rintro ⟨n, hr⟩
  obtain ⟨w, hw⟩ := reaches_src hr
  obtain ⟨w2, hw2⟩ := reaches_tgt hr
  have he : graphEdges chatMods = [("db", "chat"), ("cache", "chat")] := rfl
  rw [he] at hw hw2
  have hn2 : n = "chat" := by
    rcases List.mem_cons.mp hw2 with h | h
    · exact (Prod.mk.injEq .. ▸ h).2
    · rcases List.mem_cons.mp h with h2 | h2
      · exact (Prod.mk.injEq .. ▸ h2).2
      · cases h2
  subst hn2
  rcases List.mem_cons.mp hw with h | h
  · exact absurd (Prod.mk.injEq .. ▸ h).1 (by decide)
  · rcases List.mem_cons.mp h with h2 | h2
    · exact absurd (Prod.mk.injEq .. ▸ h2).1 (by decide)
    · cases h2

/-- Witness for C3 on the concrete acyclic trio. -/
theorem resolveLoadOrder_acyclic_witness :
    ∃ order, resolveLoadOrder chatMods = Except.ok order ∧
      order.Perm (graphNodes chatMods) ∧
      ∀ m ∈ chatMods, ∀ d ∈ m.deps, ∀ p ∈ findDependencyProviders chatMods d,
        order.indexOf p < order.indexOf m.name :=
  resolveLoadOrder_acyclic_topological chatMods (by decide) chatMods_acyclic

/-! ### Level grouping: C1 -/

/-- C1 (code bug, spec scenario 1): on the acyclic trio the code returns a
single level containing all three modules — `db`, `cache` and `chat`
together — even though the dependency edge `db → chat` lies inside that
level.  `_group_by_dependency_level` measures each node's level by
`nx.all_simple_paths(graph, node, node)`, which yields only the trivial
self-path for every node of any graph, so every module is assigned the same
level; the intended longest-path grouping `[{db, cache}, {chat}]` (spec
scenarios, §4.1) is never produced, and §9 of the spec flags this very
technique as a defect. -/
theorem groupByLevel_single_level_bug :
    resolveLoadOrder chatMods = Except.ok ["db", "cache", "chat"] ∧
      groupByDependencyLevel chatMods ["db", "cache", "chat"] =
        [["db", "cache", "chat"]] ∧
      ("db", "chat") ∈ graphEdges chatMods := by
  refine ⟨rfl, rfl, by decide⟩

end NousBot
